import Mathlib

/-!
Verification of the normalization and entity-resolution pipeline of the
Nepal-Development-Project-Service repository.

Python strings are modelled as `List Char` (Python `len`/slicing count code
points, as `List Char` does).  Each `py*` helper is a direct translation of
the corresponding Python string method as used by the source:

* `pyWs`          — the whitespace class of `str.split()` / `str.strip()`
* `pyLowerChar`   — `str.lower()` on one character (ASCII case mapping; the
                    source only lowercases ASCII and Devanagari text, and
                    Devanagari has no case)
* `pyStrip`       — `str.strip()`
* `pySplit`       — `str.split()` (split on whitespace runs, no empty tokens)
* `joinSp`        — `" ".join(...)`
* `deComma`       — `str.replace(",", " ")`
-/

namespace NDPS

def pyWs (c : Char) : Bool :=
  c = ' ' || c = '\t' || c = '\n' || c = '\r' || c = '\x0b' || c = '\x0c'

def pyLowerChar (c : Char) : Char :=
  if 65 ≤ c.toNat ∧ c.toNat ≤ 90 then Char.ofNat (c.toNat + 32) else c

def pyLower (l : List Char) : List Char := l.map pyLowerChar

def pyStrip (l : List Char) : List Char :=
  ((l.dropWhile pyWs).reverse.dropWhile pyWs).reverse

def pySplitAux : List Char → List Char → List (List Char)
  | [], acc => if acc.isEmpty then [] else [acc.reverse]
  | c :: cs, acc =>
    if pyWs c then
      if acc.isEmpty then pySplitAux cs [] else acc.reverse :: pySplitAux cs []
    else pySplitAux cs (c :: acc)

def pySplit (l : List Char) : List (List Char) := pySplitAux l []

def joinSp : List (List Char) → List Char
  | [] => []
  | [w] => w
  | w :: ws => w ++ ' ' :: joinSp ws

def pyCollapse (l : List Char) : List Char := joinSp (pySplit l)

def deComma (l : List Char) : List Char := l.map (fun c => if c = ',' then ' ' else c)

/-- The ordered administrative-suffix list of `_normalize_location_name`
(`migrate.py` lines 42–57). -/
def locationSuffixes : List (List Char) :=
  [("province").data, ("pradesh").data, ("प्रदेश").data, ("district").data,
   ("जिल्ला").data, ("metropolitan city").data, ("महानगरपालिका").data,
   ("sub metropolitan city").data, ("sub-metropolitan city").data,
   ("उपमहानगरपालिका").data, ("municipality").data, ("नगरपालिका").data,
   ("rural municipality").data, ("गाउँपालिका").data]

/-- One iteration of the suffix loop of `_normalize_location_name`
(`migrate.py` lines 58–61): `if s.endswith(suffix): s = s[:-len(suffix)].strip();
s = " ".join(s.split())`. -/
def stripSuffixStep (s suf : List Char) : List Char :=
  if suf.isSuffixOf s then pyCollapse (pyStrip (s.take (s.length - suf.length))) else s

/-- `_normalize_location_name` (`migrate.py` lines 36–62) on `List Char`. -/
def normLocList (name : List Char) : List Char :=
  let s := pyLower (pyStrip name)
  if s.isEmpty then s
  else locationSuffixes.foldl stripSuffixStep (pyCollapse (deComma s))

/-- `_normalize_location_name` as a `String → String` function. -/
def normalizeLocationName (s : String) : String := ⟨normLocList s.data⟩

def pyLowerStr (s : String) : String := ⟨pyLower s.data⟩

def pyStripStr (s : String) : String := ⟨pyStrip s.data⟩

def natToDecAux : Nat → Nat → List Char
  | 0, _ => []
  | fuel + 1, n =>
    if n < 10 then [Nat.digitChar n]
    else natToDecAux fuel (n / 10) ++ [Nat.digitChar (n % 10)]

/-- Python `str(i)` for a nonnegative integer (exact for `i < 10 ^ 400`). -/
def natToDec (n : Nat) : List Char := natToDecAux 400 n

/-- The initial-slug truncation (`migrate.py` lines 420–425, identically
1069–1074): slugs over 100 characters become `slug[:95] + "-trunc"`, re-cut
to 100 characters if still too long. -/
def finalSlug (s : List Char) : List Char :=
  if 100 < s.length then
    let t := s.take 95 ++ ("-trunc").data
    if 100 < t.length then t.take 100 else t
  else s

/-- One collision-retry slug candidate for counter `i` (`migrate.py` lines
533–545, identically 1186–1197); `ts` models `int(datetime.now().timestamp())`
in the generic fallback `f"project-{ts}-{i}"`. -/
def collisionSlug (base : List Char) (ts i : Nat) : List Char :=
  let sfx := '-' :: natToDec i
  let temp := base ++ sfx
  if 100 < temp.length then
    if 5 < 100 - sfx.length then base.take (100 - sfx.length) ++ sfx
    else ("project-").data ++ natToDec ts ++ '-' :: natToDec i
  else temp

inductive ScreenResult
  | skipNoTitle
  | skipNotNepal
  | accepted
deriving DecidableEq

/-- Title/country screening of one source record (`migrate.py` lines 215–235,
identically 863–883): `title = (project_data.get("title") or "").strip()`,
skip when empty; then skip when `country_code != "NP" and
country.lower() != "nepal"`. -/
def screenRecord (title country countryCode : List Char) : ScreenResult :=
  if (pyStrip title).isEmpty then .skipNoTitle
  else if ¬ countryCode = ("NP").data ∧ ¬ pyLower country = ("nepal").data then
    .skipNotNepal
  else .accepted

/-- Effect of a skip on the run's `skipped_count` (`migrate.py` lines 215–218
increment it for a missing title; lines 233–236 do not for a wrong country). -/
def skippedCounterDelta : ScreenResult → Nat
  | .skipNoTitle => 1
  | _ => 0

/-- Whether a skip writes a log line (`migrate.py` line 235 logs the
wrong-country skip; the missing-title skip at 216–218 logs nothing). -/
def skipIsLogged : ScreenResult → Bool
  | .skipNotNepal => true
  | _ => false

def wbOrgSlug : String := "world-bank-international-organization"

def govNepalOrgSlug : String := "government-of-nepal"

/-- `context.search.search_entity_by_slug` over an abstract store of existing
entity slugs. -/
def searchBySlug (slug : String) (store : List String) : Option String :=
  if slug ∈ store then some slug else none

/-- World Bank funding-organization step (`migrate.py` lines 624–657): try to
create the entity; when creation fails with "already exists", set the entity
to `None` and skip the funding relationship for this record. Returns the
organization entity available for the funding relationship, if any. -/
def wbEnsureFundingOrg (store : List String) : Option String :=
  if wbOrgSlug ∈ store then none else some wbOrgSlug

/-- Government-of-Nepal funding-organization step on the NPC path
(`migrate.py` lines 1276–1309): try to create the entity; when creation fails
with "already exists", look the existing entity up by its slug. -/
def npcEnsureFundingOrg (store : List String) : Option String :=
  if govNepalOrgSlug ∈ store then searchBySlug govNepalOrgSlug store
  else some govNepalOrgSlug

/-- Whether the funding relationship is created for this record
(`migrate.py` lines 660 and 1312: only when the organization entity is
present). -/
def fundingRelCreated (org : Option String) : Bool := org.isSome

inductive LinkOutcome
  | linked : String → LinkOutcome
  | noLink : Bool → LinkOutcome
  | aborted : String → LinkOutcome
deriving DecidableEq

/-- The alias table `LOCATION_NAME_ALIASES` (`migrate.py` lines 66–81). -/
def locationNameAliases : List (String × String) :=
  [("sankhuwasava", "sankhuwasabha"), ("panchthar", "pachthar"),
   ("madesh", "madhesh"), ("sidhupalchowk", "sindhupalchok"),
   ("kavrepalanchowk", "kavrepalanchok"), ("makawanpur", "makwanpur"),
   ("chitawan", "chitwan"), ("parbat", "parwat"), ("rukumkot", "eastern rukum"),
   ("arghakhachi", "arghakhanchi"), ("nawalparasi", "nawalpur"),
   ("rukum", "western rukum"), ("sudurpashchim", "sudur paschimanchal"),
   ("achham", "acham")]

/-- `LOCATION_NAME_ALIASES.get(k, k)`. -/
def aliasFix (k : String) : String :=
  match locationNameAliases.find? (fun p => p.1 == k) with
  | some p => p.2
  | none => k

/-- The primary-location linking step (district, then municipality caches;
`migrate.py` lines 335–359, identically 984–1008): alias-fixed normalized key
first, then the raw lowercased key; on a supplied-but-unresolved name log a
warning and proceed with no link (`LinkOutcome.noLink true`). `aborted` is
the outcome a strict policy would produce; no branch yields it. -/
def locationLinkStep (districtLookup municipalityLookup : String → Option String)
    (primaryName : String) : LinkOutcome :=
  if primaryName = "" then .noLink false
  else
    let kNorm := aliasFix (normalizeLocationName primaryName)
    let kFull := pyLowerStr (pyStripStr primaryName)
    let le :=
      match districtLookup kNorm with
      | some e => some e
      | none => municipalityLookup kNorm
    let le2 :=
      match le with
      | some e => some e
      | none =>
        match districtLookup kFull with
        | some e => some e
        | none => municipalityLookup kFull
    match le2 with
    | some e => .linked e
    | none => .noLink true

/-- The province linking step (`migrate.py` lines 326–333 with the warning at
361–368, identically 975–982 and 1010–1017). -/
def provinceLinkStep (provinceLookup : String → Option String)
    (provinceName : String) : LinkOutcome :=
  if provinceName = "" then .noLink false
  else
    let pKeyNorm := aliasFix (normalizeLocationName provinceName)
    let pKeyFull := pyLowerStr (pyStripStr provinceName)
    match provinceLookup pKeyNorm with
    | some e => .linked e
    | none =>
      match provinceLookup pKeyFull with
      | some e => .linked e
      | none => .noLink true

/-- A JSON object with string-valued fields, as consumed by
`_normalize_adb_json_project`. -/
def JsonRec := List (String × String)

/-- `dict.get(key)` (absent key gives `None`). -/
def pyGet (r : JsonRec) (k : String) : Option String :=
  match r.find? (fun p => p.1 == k) with
  | some p => some p.2
  | none => none

/-- Python `a or b` for optional strings (`None` and `""` are falsy). -/
def pyOrOpt (a b : Option String) : Option String :=
  match a with
  | some s => if s = "" then b else some s
  | none => b

/-- A chain `x1 or x2 or ... or dflt` whose last operand is a string. -/
def pyOrChain : List (Option String) → String → String
  | [], dflt => dflt
  | x :: rest, dflt =>
    match x with
    | some s => if s = "" then pyOrChain rest dflt else s
    | none => pyOrChain rest dflt

/-- `project_id` extraction of `_normalize_adb_json_project`
(`scrape_adb.py` lines 450–457). -/
def adbJsonProjectId (r : JsonRec) : String :=
  pyOrChain [pyGet r ("id"), pyGet r ("project_id"), pyGet r ("projectId"),
    pyGet r ("project_number"), pyGet r ("projectNumber")] ""

/-- `title` extraction of `_normalize_adb_json_project` (`scrape_adb.py`
lines 460–466).  In Python a conditional expression binds more loosely than
`or`, so the source expression parses as
`((title or name or project_name or projectName or str(project_id)) if project_id else "").strip()`:
the whole fallback chain is gated on a truthy `project_id`. -/
def adbJsonTitle (r : JsonRec) : String :=
  let pid := adbJsonProjectId r
  pyStripStr
    (if pid = "" then ""
     else pyOrChain [pyGet r ("title"), pyGet r ("name"), pyGet r ("project_name"),
       pyGet r ("projectName")] pid)

/-- `_normalize_adb_json_project` returns a record only when the derived
title is non-empty (`scrape_adb.py` lines 623–628); this is the returned
record's title, `none` when the record is dropped. -/
def adbJsonNormalizedTitle (r : JsonRec) : Option String :=
  let t := adbJsonTitle r
  if t = "" then none else some t

/-- Does `l` start with `p`? (helper for Python's substring test). -/
def listStartsWith : List Char → List Char → Bool
  | _, [] => true
  | [], _ :: _ => false
  | c :: cs, d :: ds => c == d && listStartsWith cs ds

/-- Python's substring containment `needle in hay`. -/
def listContainsSub : (hay needle : List Char) → Bool
  | hay, needle =>
    if listStartsWith hay needle then true
    else
      match hay with
      | [] => false
      | _ :: t => listContainsSub t needle

structure ActivityDate where
  type : String
  iso_date : String
deriving DecidableEq

/-- One iteration of the activity-date loop of `_normalize_adb_project`
(`scrape_adb.py` lines 901–908); the accumulator is `(start_date, end_date)`. -/
def activityDateStep (acc : String × String) (d : ActivityDate) : String × String :=
  let ty := pyLowerStr d.type
  if d.iso_date = "" then acc
  else if listContainsSub ty.data ("start").data || ty == "1" then (d.iso_date, acc.2)
  else if listContainsSub ty.data ("end").data || ty == "3" then (acc.1, d.iso_date)
  else acc

/-- Activity-date extraction over the whole `activity_dates` list
(`scrape_adb.py` lines 898–908), returning `(start_date, end_date)`. -/
def extractActivityDates (dates : List ActivityDate) : String × String :=
  dates.foldl activityDateStep ("", "")

/-- Coordinate extraction from one location's `pos` text (`scrape_adb.py`
lines 131–140), parameterised by the numeric parser `pf` standing for Python
`float` (`none` = the call raises). `posText` is `pos_el.text` when a `pos`
element was found, `none` when the element is absent or its text is `None`;
the empty string is falsy, so it also skips parsing. -/
def parsePos {α : Type} (pf : String → Option α) (posText : Option String) :
    Option α × Option α :=
  match posText with
  | none => (none, none)
  | some t =>
    if t = "" then (none, none)
    else
      match pySplit (pyStrip t.data) with
      | s0 :: s1 :: _ =>
        match pf ⟨s0⟩, pf ⟨s1⟩ with
        | some a, some b => (some a, some b)
        | _, _ => (none, none)
      | _ => (none, none)

structure OtherIdentifier where
  ref : Option String

structure IatiActivity where
  iati_identifier : Option String
  other_identifiers : List OtherIdentifier

/-- `project_id` extraction of `_normalize_adb_project` (`scrape_adb.py`
lines 842–846).  In Python a conditional expression binds more loosely than
`or`, so the source expression parses as
`(iati_identifier or other_identifiers[0].get("ref")) if other_identifiers else (None or "")`. -/
def adbIatiProjectId (a : IatiActivity) : Option String :=
  match a.other_identifiers with
  | [] => some ""
  | o :: _ => pyOrOpt a.iati_identifier o.ref

/-- The project `url` derivation (`scrape_adb.py` line 971):
`f"https://www.adb.org/projects/{project_id}" if project_id and 'P' in str(project_id) else ""`. -/
def adbIatiUrl (pid : Option String) : String :=
  match pid with
  | none => ""
  | some s =>
    if s ≠ "" ∧ 'P' ∈ s.data then ("https://www.adb.org/projects/") ++ s else ""

set_option maxRecDepth 10000

/-- `Char.ofNat` round-trips on values below the surrogate range. -/
theorem char_toNat_ofNat {n : Nat} (h : n < 55296) : (Char.ofNat n).toNat = n := by
  unfold Char.ofNat
  rw [dif_pos (Or.inl h)]
  unfold Char.ofNatAux Char.toNat
  rfl

/-- Lowercasing a character twice is the same as lowercasing it once. -/
theorem pyLowerChar_idem (c : Char) : pyLowerChar (pyLowerChar c) = pyLowerChar c := by
  unfold pyLowerChar
  by_cases h : 65 ≤ c.toNat ∧ c.toNat ≤ 90
  · have h2 : (Char.ofNat (c.toNat + 32)).toNat = c.toNat + 32 :=
      char_toNat_ofNat (by omega)
    have h3 : ¬ (65 ≤ (Char.ofNat (c.toNat + 32)).toNat ∧
        (Char.ofNat (c.toNat + 32)).toNat ≤ 90) := by
      rw [h2]; omega
    rw [if_pos h, if_neg h3]
  · rw [if_neg h, if_neg h]

theorem pyLower_eq_self (l : List Char) (h : ∀ c ∈ l, pyLowerChar c = c) :
    pyLower l = l := by
  unfold pyLower
  induction l with
  | nil => rfl
  | cons a t ih =>
    rw [List.map_cons, h a (List.mem_cons_self a t),
      ih fun c hc => h c (List.mem_cons_of_mem a hc)]

theorem deComma_eq_self (l : List Char) (h : ∀ c ∈ l, ¬ c = ',') : deComma l = l := by
  unfold deComma
  induction l with
  | nil => rfl
  | cons a t ih =>
    rw [List.map_cons, if_neg (h a (List.mem_cons_self a t)),
      ih fun c hc => h c (List.mem_cons_of_mem a hc)]

/-- Every token produced by the split is non-empty and whitespace-free. -/
theorem pySplitAux_tokens (l : List Char) : ∀ (acc : List Char),
    (∀ c ∈ acc, pyWs c = false) →
    ∀ w ∈ pySplitAux l acc, ¬ w = [] ∧ ∀ c ∈ w, pyWs c = false := by
  induction l with
  | nil =>
    intro acc hacc w hw
    unfold pySplitAux at hw
    by_cases he : acc.isEmpty
    · rw [if_pos he] at hw
      exact absurd hw (List.not_mem_nil w)
    · rw [if_neg he] at hw
      rcases List.mem_singleton.mp hw with rfl
      refine ⟨?_, ?_⟩
      · intro hr
        exact he (List.isEmpty_iff.mpr (List.reverse_eq_nil_iff.mp hr))
      · intro c hc
        exact hacc c (List.mem_reverse.mp hc)
  | cons a t ih =>
    intro acc hacc w hw
    unfold pySplitAux at hw
    by_cases hws : pyWs a
    · rw [if_pos hws] at hw
      by_cases he : acc.isEmpty
      · rw [if_pos he] at hw
        exact ih [] (by simp) w hw
      · rw [if_neg he] at hw
        rcases List.mem_cons.mp hw with rfl | hw2
        · refine ⟨?_, ?_⟩
          · intro hr
            exact he (List.isEmpty_iff.mpr (List.reverse_eq_nil_iff.mp hr))
          · intro c hc
            exact hacc c (List.mem_reverse.mp hc)
        · exact ih [] (by simp) w hw2
    · rw [if_neg hws] at hw
      refine ih (a :: acc) ?_ w hw
      intro c hc
      rcases List.mem_cons.mp hc with rfl | hc2
      · exact Bool.eq_false_iff.mpr hws
      · exact hacc c hc2

theorem pySplit_tokens (l : List Char) :
    ∀ w ∈ pySplit l, ¬ w = [] ∧ ∀ c ∈ w, pyWs c = false :=
  pySplitAux_tokens l [] (by simp)

/-- Every character of a token of the split comes from the input (or the
accumulator). -/
theorem pySplitAux_chars (l : List Char) : ∀ (acc w : List Char),
    w ∈ pySplitAux l acc → ∀ c ∈ w, c ∈ l ∨ c ∈ acc := by
  induction l with
  | nil =>
    intro acc w hw c hc
    unfold pySplitAux at hw
    by_cases he : acc.isEmpty
    · rw [if_pos he] at hw
      exact absurd hw (List.not_mem_nil w)
    · rw [if_neg he] at hw
      rcases List.mem_singleton.mp hw with rfl
      exact Or.inr (List.mem_reverse.mp hc)
  | cons a t ih =>
    intro acc w hw c hc
    unfold pySplitAux at hw
    by_cases hws : pyWs a
    · rw [if_pos hws] at hw
      by_cases he : acc.isEmpty
      · rw [if_pos he] at hw
        rcases ih [] w hw c hc with h1 | h1
        · exact Or.inl (List.mem_cons_of_mem a h1)
        · exact absurd h1 (List.not_mem_nil c)
      · rw [if_neg he] at hw
        rcases List.mem_cons.mp hw with rfl | hw2
        · exact Or.inr (List.mem_reverse.mp hc)
        · rcases ih [] w hw2 c hc with h1 | h1
          · exact Or.inl (List.mem_cons_of_mem a h1)
          · exact absurd h1 (List.not_mem_nil c)
    · rw [if_neg hws] at hw
      rcases ih (a :: acc) w hw c hc with h1 | h1
      · exact Or.inl (List.mem_cons_of_mem a h1)
      · rcases List.mem_cons.mp h1 with rfl | h2
        · exact Or.inl (List.mem_cons_self c t)
        · exact Or.inr h2

/-- Every character of the joined list is a space or comes from a token. -/
theorem joinSp_chars (ws : List (List Char)) :
    ∀ c ∈ joinSp ws, c = ' ' ∨ ∃ w ∈ ws, c ∈ w := by
  induction ws with
  | nil =>
    intro c hc
    exact absurd hc (List.not_mem_nil c)
  | cons w rest ih =>
    intro c hc
    cases rest with
    | nil => exact Or.inr ⟨w, List.mem_cons_self w [], hc⟩
    | cons w2 rest2 =>
      have hj : joinSp (w :: w2 :: rest2) = w ++ ' ' :: joinSp (w2 :: rest2) := rfl
      rw [hj] at hc
      rcases List.mem_append.mp hc with h1 | h1
      · exact Or.inr ⟨w, List.mem_cons_self w _, h1⟩
      · rcases List.mem_cons.mp h1 with rfl | h2
        · exact Or.inl rfl
        · rcases ih c h2 with h3 | ⟨w3, hw3, hc3⟩
          · exact Or.inl h3
          · exact Or.inr ⟨w3, List.mem_cons_of_mem w hw3, hc3⟩

/-- Consuming a whitespace-free word moves it, reversed, into the
accumulator. -/
theorem pySplitAux_append_word (w : List Char) (hw : ∀ c ∈ w, pyWs c = false) :
    ∀ (rest acc : List Char),
    pySplitAux (w ++ rest) acc = pySplitAux rest (w.reverse ++ acc) := by
  induction w with
  | nil =>
    intro rest acc
    simp
  | cons a t ih =>
    intro rest acc
    have ha : pyWs a = false := hw a (List.mem_cons_self a t)
    have h0 : pySplitAux (a :: (t ++ rest)) acc =
        if pyWs a then
          (if acc.isEmpty then pySplitAux (t ++ rest) []
           else acc.reverse :: pySplitAux (t ++ rest) [])
        else pySplitAux (t ++ rest) (a :: acc) := rfl
    have h1 : pySplitAux (a :: (t ++ rest)) acc = pySplitAux (t ++ rest) (a :: acc) := by
      rw [h0, if_neg (by simp [ha])]
    rw [List.cons_append, h1,
      ih (fun c hc => hw c (List.mem_cons_of_mem a hc)) rest (a :: acc)]
    congr 1
    simp

/-- Splitting the space-joined list of good tokens recovers the tokens. -/
theorem pySplit_joinSp (ws : List (List Char))
    (h : ∀ w ∈ ws, ¬ w = [] ∧ ∀ c ∈ w, pyWs c = false) :
    pySplit (joinSp ws) = ws := by
  induction ws with
  | nil => rfl
  | cons w rest ih =>
    have hw := h w (List.mem_cons_self w rest)
    cases rest with
    | nil =>
      show pySplitAux (joinSp [w]) [] = [w]
      have hj : joinSp [w] = w := rfl
      rw [hj]
      have h1 := pySplitAux_append_word w hw.2 [] []
      simp only [List.append_nil] at h1
      rw [h1]
      unfold pySplitAux
      rw [if_neg (by simp [List.isEmpty_iff, List.reverse_eq_nil_iff, hw.1]),
        List.reverse_reverse]
    | cons w2 rest2 =>
      show pySplitAux (joinSp (w :: w2 :: rest2)) [] = w :: w2 :: rest2
      have hj : joinSp (w :: w2 :: rest2) = w ++ ' ' :: joinSp (w2 :: rest2) := rfl
      rw [hj, pySplitAux_append_word w hw.2 (' ' :: joinSp (w2 :: rest2)) []]
      simp only [List.append_nil]
      unfold pySplitAux
      rw [if_pos (by decide), if_neg (by simp [List.isEmpty_iff,
        List.reverse_eq_nil_iff, hw.1]), List.reverse_reverse]
      have ih2 := ih fun x hx => h x (List.mem_cons_of_mem w hx)
      unfold pySplit at ih2
      rw [ih2]

theorem joinSp_ne_nil (ws : List (List Char)) (hne : ¬ ws = [])
    (h : ∀ w ∈ ws, ¬ w = []) : ¬ joinSp ws = [] := by
  cases ws with
  | nil => exact absurd rfl hne
  | cons w rest =>
    cases rest with
    | nil =>
      show ¬ w = []
      exact h w (List.mem_cons_self w [])
    | cons w2 rest2 =>
      have hj : joinSp (w :: w2 :: rest2) = w ++ ' ' :: joinSp (w2 :: rest2) := rfl
      rw [hj]
      simp

theorem joinSp_head_not_ws (ws : List (List Char))
    (h : ∀ w ∈ ws, ¬ w = [] ∧ ∀ c ∈ w, pyWs c = false) :
    ∀ c, (joinSp ws).head? = some c → pyWs c = false := by
  cases ws with
  | nil =>
    intro c hc
    exact absurd hc (by simp [joinSp])
  | cons w rest =>
    have hw := h w (List.mem_cons_self w rest)
    intro c hc
    cases hwe : w with
    | nil => exact absurd hwe hw.1
    | cons d w' =>
      subst hwe
      cases rest with
      | nil =>
        rw [show joinSp [d :: w'] = d :: w' from rfl, List.head?_cons] at hc
        injection hc with hdc
        exact hdc ▸ hw.2 d (List.mem_cons_self d w')
      | cons w2 rest2 =>
        rw [show joinSp ((d :: w') :: w2 :: rest2) =
          (d :: w') ++ ' ' :: joinSp (w2 :: rest2) from rfl,
          List.cons_append, List.head?_cons] at hc
        injection hc with hdc
        exact hdc ▸ hw.2 d (List.mem_cons_self d w')

theorem joinSp_getLast_not_ws (ws : List (List Char))
    (h : ∀ w ∈ ws, ¬ w = [] ∧ ∀ c ∈ w, pyWs c = false) :
    ∀ c, (joinSp ws).getLast? = some c → pyWs c = false := by
  induction ws with
  | nil =>
    intro c hc
    exact absurd hc (by simp [joinSp])
  | cons w rest ih =>
    have hw := h w (List.mem_cons_self w rest)
    intro c hc
    cases rest with
    | nil =>
      rw [show joinSp [w] = w from rfl] at hc
      have hcm : c ∈ w.getLast? := Option.mem_def.mpr hc
      rcases List.mem_getLast?_eq_getLast hcm with ⟨hne, rfl⟩
      exact hw.2 _ (List.getLast_mem hne)
    | cons w2 rest2 =>
      rw [show joinSp (w :: w2 :: rest2) = w ++ ' ' :: joinSp (w2 :: rest2) from rfl,
        List.getLast?_append] at hc
      have hne : ¬ joinSp (w2 :: rest2) = [] :=
        joinSp_ne_nil _ (by simp)
          (fun x hx => (h x (List.mem_cons_of_mem w hx)).1)
      rcases e : joinSp (w2 :: rest2) with _ | ⟨x, xs⟩
      · exact absurd e hne
      · rw [e, List.getLast?_cons_cons] at hc
        have hgl := @List.getLast?_eq_getLast_of_ne_nil Char (x :: xs) (by simp)
        rw [hgl] at hc
        have hc2 : (some ((x :: xs).getLast (by simp)) : Option Char) = some c := hc
        injection hc2 with hyc
        refine ih (fun x2 hx2 => h x2 (List.mem_cons_of_mem w hx2)) c ?_
        rw [e, hgl, hyc]

/-- `strip` is the identity on lists with non-whitespace first and last
characters. -/
theorem pyStrip_eq_self (l : List Char)
    (hh : ∀ c, l.head? = some c → pyWs c = false)
    (hl : ∀ c, l.getLast? = some c → pyWs c = false) : pyStrip l = l := by
  unfold pyStrip
  cases l with
  | nil => rfl
  | cons a t =>
    have ha : pyWs a = false := hh a rfl
    rw [List.dropWhile_cons, if_neg (by simp [ha])]
    rcases e : (a :: t).reverse with _ | ⟨b, r⟩
    · exact absurd (List.reverse_eq_nil_iff.mp e) (by simp)
    · have hb : (a :: t).getLast? = some b := by
        rw [← List.head?_reverse, e, List.head?_cons]
      have hbw : pyWs b = false := hl b hb
      rw [List.dropWhile_cons, if_neg (by simp [hbw]), ← e, List.reverse_reverse]

theorem pyCollapse_idem (l : List Char) : pyCollapse (pyCollapse l) = pyCollapse l := by
  unfold pyCollapse
  rw [pySplit_joinSp (pySplit l) (pySplit_tokens l)]

theorem pyStrip_pyCollapse (l : List Char) : pyStrip (pyCollapse l) = pyCollapse l := by
  unfold pyCollapse
  exact pyStrip_eq_self _ (joinSp_head_not_ws (pySplit l) (pySplit_tokens l))
    (joinSp_getLast_not_ws (pySplit l) (pySplit_tokens l))

theorem pyCollapse_chars (l : List Char) : ∀ c ∈ pyCollapse l, c = ' ' ∨ c ∈ l := by
  intro c hc
  rcases joinSp_chars (pySplit l) c hc with h1 | ⟨w, hw, hcw⟩
  · exact Or.inl h1
  · rcases pySplitAux_chars l [] w hw c hcw with h2 | h2
    · exact Or.inr h2
    · exact absurd h2 (List.not_mem_nil c)

theorem pyStrip_subset (l : List Char) : ∀ c ∈ pyStrip l, c ∈ l := by
  intro c hc
  unfold pyStrip at hc
  rw [List.mem_reverse] at hc
  have h1 := (List.dropWhile_sublist pyWs).subset hc
  rw [List.mem_reverse] at h1
  exact (List.dropWhile_sublist pyWs).subset h1

/-- Any character predicate holding for the space and all of `s` holds after
one suffix-strip step. -/
theorem stripSuffixStep_chars (P : Char → Prop) (hP : P ' ') (s suf : List Char)
    (h : ∀ c ∈ s, P c) : ∀ c ∈ stripSuffixStep s suf, P c := by
  intro c hc
  unfold stripSuffixStep at hc
  by_cases hm : suf.isSuffixOf s
  · rw [if_pos hm] at hc
    rcases pyCollapse_chars _ c hc with rfl | h2
    · exact hP
    · exact h c (List.take_subset _ _ (pyStrip_subset _ c h2))
  · rw [if_neg hm] at hc
    exact h c hc

theorem foldl_stripSuffixStep_chars (P : Char → Prop) (hP : P ' ')
    (sufs : List (List Char)) : ∀ (s : List Char), (∀ c ∈ s, P c) →
    ∀ c ∈ sufs.foldl stripSuffixStep s, P c := by
  induction sufs with
  | nil =>
    intro s h c hc
    exact h c hc
  | cons suf rest ih =>
    intro s h c hc
    rw [List.foldl_cons] at hc
    exact ih (stripSuffixStep s suf) (stripSuffixStep_chars P hP s suf h) c hc

theorem stripSuffixStep_collapsed (s suf : List Char) (h : pyCollapse s = s) :
    pyCollapse (stripSuffixStep s suf) = stripSuffixStep s suf := by
  unfold stripSuffixStep
  by_cases hm : suf.isSuffixOf s
  · rw [if_pos hm]
    exact pyCollapse_idem _
  · rw [if_neg hm]
    exact h

theorem foldl_stripSuffixStep_collapsed (sufs : List (List Char)) :
    ∀ s, pyCollapse s = s →
    pyCollapse (sufs.foldl stripSuffixStep s) = sufs.foldl stripSuffixStep s := by
  induction sufs with
  | nil =>
    intro s h
    exact h
  | cons suf rest ih =>
    intro s h
    rw [List.foldl_cons]
    exact ih _ (stripSuffixStep_collapsed s suf h)

/-- Characters surviving lowercasing-then-comma-replacement are lower-fixed
and not commas. -/
theorem deComma_pyLower_chars (x : List Char) :
    ∀ c ∈ deComma (pyLower x), pyLowerChar c = c ∧ ¬ c = ',' := by
  intro c hc
  unfold deComma pyLower at hc
  rw [List.mem_map] at hc
  rcases hc with ⟨d, hd, rfl⟩
  rw [List.mem_map] at hd
  rcases hd with ⟨e, _, rfl⟩
  by_cases hcm : pyLowerChar e = ','
  · simp only [if_pos hcm]
    exact ⟨rfl, by decide⟩
  · simp only [if_neg hcm]
    exact ⟨pyLowerChar_idem e, hcm⟩

/-- `_normalize_location_name` unfolded (the `let` is Python's local `s`). -/
theorem normLocList_apply (x : List Char) :
    normLocList x = if (pyLower (pyStrip x)).isEmpty then pyLower (pyStrip x)
      else locationSuffixes.foldl stripSuffixStep
        (pyCollapse (deComma (pyLower (pyStrip x)))) := rfl

/-- Fold of `stripSuffixStep` over a suffix list is the identity when no
suffix of the list matches. -/
theorem foldl_stripSuffixStep_of_no_match (sufs : List (List Char)) (s : List Char)
    (h : ∀ suf ∈ sufs, suf.isSuffixOf s = false) :
    sufs.foldl stripSuffixStep s = s := by
  induction sufs with
  | nil => rfl
  | cons suf rest ih =>
    have h1 : suf.isSuffixOf s = false := h suf (List.mem_cons_self suf rest)
    have h2 : stripSuffixStep s suf = s := by
      unfold stripSuffixStep
      simp [h1]
    rw [List.foldl_cons, h2]
    exact ih fun x hx => h x (List.mem_cons_of_mem suf hx)

/-- In the non-empty case `_normalize_location_name` is the suffix fold over
the pre-normalized (lowercased, trimmed, comma-replaced, collapsed) input. -/
theorem normLocList_eq_foldl (l : List Char)
    (h : ¬ (pyLower (pyStrip l)).isEmpty = true) :
    normLocList l = locationSuffixes.foldl stripSuffixStep
      (pyCollapse (deComma (pyLower (pyStrip l)))) := by
  rw [normLocList_apply, if_neg h]

/-- Applying `_normalize_location_name` to one of its own outputs is the
identity whenever that output does not still end with a listed suffix. -/
theorem normLocList_idem (l : List Char)
    (h : ∀ suf ∈ locationSuffixes, suf.isSuffixOf (normLocList l) = false) :
    normLocList (normLocList l) = normLocList l := by
  by_cases hu : normLocList l = []
  · rw [hu]
    rfl
  · have hne : ¬ (pyLower (pyStrip l)).isEmpty = true := by
      intro he
      apply hu
      rw [normLocList_apply, if_pos he]
      exact List.isEmpty_iff.mp he
    have hfold := normLocList_eq_foldl l hne
    have hcoll : pyCollapse (normLocList l) = normLocList l := by
      rw [hfold]
      exact foldl_stripSuffixStep_collapsed _ _ (pyCollapse_idem _)
    have hchars : ∀ c ∈ normLocList l, pyLowerChar c = c ∧ ¬ c = ',' := by
      rw [hfold]
      apply foldl_stripSuffixStep_chars (fun c => pyLowerChar c = c ∧ ¬ c = ',')
        ⟨rfl, by decide⟩
      intro c hc
      rcases pyCollapse_chars _ c hc with rfl | h2
      · exact ⟨rfl, by decide⟩
      · exact deComma_pyLower_chars _ c h2
    have hstrip : pyStrip (normLocList l) = normLocList l := by
      conv_lhs => rw [← hcoll]
      rw [pyStrip_pyCollapse, hcoll]
    have hlow : pyLower (normLocList l) = normLocList l :=
      pyLower_eq_self _ fun c hc => (hchars c hc).1
    have hcomma : deComma (normLocList l) = normLocList l :=
      deComma_eq_self _ fun c hc => (hchars c hc).2
    rw [normLocList_apply (normLocList l), hstrip, hlow,
      if_neg (by simp [List.isEmpty_iff, hu]), hcomma, hcoll]
    exact foldl_stripSuffixStep_of_no_match _ _ h

/-- C2 counterexample: on `"x district province"` the loop first strips
`"province"` (the first matching suffix in list order), then also strips the
now-exposed `"district"`, producing `"x"`; under the claim only the first
matching suffix would be removed, giving `"x district"`. -/
theorem c2_counterexample :
    normalizeLocationName ("x district province") = ("x") ∧
    normalizeLocationName ("x district province") ≠ ("x district") := by decide

/-- C2 (amended): normalization makes a single ordered pass over the suffix
list, stripping each listed suffix that matches when its turn comes.  A given
suffix is stripped at most once and never re-checked
(`"x province province"` → `"x province"`), but several distinct listed
suffixes can be stripped in one pass when stripping one exposes a later-listed
one (`"x district province"` → `"x"`).  The spec's examples hold. -/
theorem c2_suffix_strip_single_pass :
    normalizeLocationName ("Kathmandu Metropolitan City") = ("kathmandu") ∧
    normalizeLocationName ("Bagmati Province") = ("bagmati") ∧
    normalizeLocationName ("x province province") = ("x province") ∧
    normalizeLocationName ("x district province") = ("x") := by decide

/-- C3 counterexample: normalization is not idempotent.  One pass over
`"x province district"` strips only `"district"` (the `"province"` entry was
checked before that strip exposed it), giving `"x province"`; a second pass
strips `"province"` as well. -/
theorem c3_counterexample :
    normalizeLocationName (normalizeLocationName ("x province district")) ≠
      normalizeLocationName ("x province district") := by decide

/-- C3 (amended): location-name normalization is idempotent on every string
whose normalized form does not still end with one of the listed
administrative suffixes; in general a second application may strip further
suffixes (see the counterexample). -/
theorem c3_conditional_idempotence (s : String)
    (h : ∀ suf ∈ locationSuffixes,
      suf.isSuffixOf (normalizeLocationName s).data = false) :
    normalizeLocationName (normalizeLocationName s) = normalizeLocationName s := by
  unfold normalizeLocationName
  congr 1
  exact normLocList_idem s.data h

/-- Witness for `c3_conditional_idempotence` at the spec's own example. -/
theorem c3_conditional_idempotence_witness :
    normalizeLocationName (normalizeLocationName ("Kathmandu Metropolitan City")) =
      normalizeLocationName ("Kathmandu Metropolitan City") :=
  c3_conditional_idempotence ("Kathmandu Metropolitan City") (by decide)

/-- C4 counterexample: on the World Bank path, when the World Bank
organization entity already exists, creation fails with "already exists", the
entity variable is set to `None`, and the funding relationship is *not*
created (no lookup is performed). -/
theorem c4_counterexample :
    fundingRelCreated (wbEnsureFundingOrg [wbOrgSlug]) = false := by decide

/-- C4 (amended): only the NPC path recovers from "already exists" by looking
the existing entity up by its deterministic slug (so its funding linkage is
always created); the World Bank path sets the entity to `None` and skips the
funding linkage for that record. -/
theorem c4_funding_org_linkage (store : List String) :
    npcEnsureFundingOrg store = some govNepalOrgSlug ∧
    fundingRelCreated (npcEnsureFundingOrg store) = true ∧
    (wbOrgSlug ∈ store → fundingRelCreated (wbEnsureFundingOrg store) = false) := by
  refine ⟨?_, ?_, ?_⟩
  · unfold npcEnsureFundingOrg searchBySlug
    split_ifs <;> simp_all
  · unfold fundingRelCreated npcEnsureFundingOrg searchBySlug
    split_ifs <;> simp_all
  · intro hmem
    unfold fundingRelCreated wbEnsureFundingOrg
    rw [if_pos hmem]
    rfl

/-- Witness for `c4_funding_org_linkage` at a store already containing both
organization slugs. -/
theorem c4_funding_org_linkage_witness :
    npcEnsureFundingOrg [wbOrgSlug, govNepalOrgSlug] = some govNepalOrgSlug ∧
    fundingRelCreated (wbEnsureFundingOrg [wbOrgSlug, govNepalOrgSlug]) = false :=
  ⟨(c4_funding_org_linkage [wbOrgSlug, govNepalOrgSlug]).1,
   (c4_funding_org_linkage [wbOrgSlug, govNepalOrgSlug]).2.2 (by decide)⟩

/-- Truncated initial slugs never exceed 100 characters
(`migrate.py` lines 420–425). -/
theorem finalSlug_length (s : List Char) : (finalSlug s).length ≤ 100 := by
  simp only [finalSlug]
  split_ifs <;>
    simp only [List.length_take, List.length_append, List.length_cons,
      List.length_nil] at * <;> omega

/-- A collision-retry slug candidate stays within 100 characters as long as
the counter has at most 93 decimal digits. -/
theorem collisionSlug_length (base : List Char) (ts i : Nat)
    (h : (natToDec i).length ≤ 93) : (collisionSlug base ts i).length ≤ 100 := by
  simp only [collisionSlug]
  split_ifs <;>
    simp only [List.length_append, List.length_take, List.length_cons] at * <;> omega

/-- C5 counterexample: with a retry counter of 94 decimal digits the generic
fallback `f"project-{timestamp}-{i}"` is taken and the produced slug has 113
characters, exceeding the 100-character bound. -/
theorem c5_counterexample :
    100 < (collisionSlug ("abcdef").data 1737900000 (10 ^ 93)).length := by decide

/-- C5 (amended): the initial slug after truncation never exceeds 100
characters, and every collision-retry slug stays within 100 characters
provided its numeric suffix has at most 93 decimal digits (beyond that the
timestamp-based generic fallback can exceed the bound). -/
theorem c5_slug_length_bound (s base : List Char) (ts i : Nat)
    (h : (natToDec i).length ≤ 93) :
    (finalSlug s).length ≤ 100 ∧ (collisionSlug base ts i).length ≤ 100 :=
  ⟨finalSlug_length s, collisionSlug_length base ts i h⟩

/-- Witness for `c5_slug_length_bound` at a long title slug and the first
retry counter. -/
theorem c5_slug_length_bound_witness :
    (natToDec 2).length ≤ 93 ∧
    (finalSlug ("nepal-strategic-road-network-improvement-and-connectivity-enhancement-development-project-phase-two-additional-financing").data).length ≤ 100 ∧
    (collisionSlug ("nepal-road-network-project").data 1737900000 2).length ≤ 100 :=
  ⟨by decide,
   (c5_slug_length_bound ("nepal-strategic-road-network-improvement-and-connectivity-enhancement-development-project-phase-two-additional-financing").data ("nepal-road-network-project").data 1737900000 2 (by decide)).1,
   (c5_slug_length_bound ("nepal-strategic-road-network-improvement-and-connectivity-enhancement-development-project-phase-two-additional-financing").data ("nepal-road-network-project").data 1737900000 2 (by decide)).2⟩

/-- C6 counterexample: with two start-typed date entries the *last* one wins
(each match overwrites `start_date`); under the claim the first entry's date
`"2020-01-01"` would be kept. -/
theorem c6_counterexample :
    (extractActivityDates [⟨("1"), ("2020-01-01")⟩, ⟨("1"), ("2021-01-01")⟩]).1 =
      ("2021-01-01") ∧
    (extractActivityDates [⟨("1"), ("2020-01-01")⟩, ⟨("1"), ("2021-01-01")⟩]).1 ≠
      ("2020-01-01") := by decide

/-- C6 (amended): a date entry is a start date if its lowercased type contains
`"start"` or equals `"1"`, and an end date if it contains `"end"` or equals
`"3"` (checked only when it is not a start date); entries with an empty
iso-date are ignored, and for each category the *last* matching entry in the
list wins — appending a matching entry overwrites whatever any earlier
entries produced. -/
theorem c6_date_typing_last_wins (ds : List ActivityDate) (d : ActivityDate) :
    (d.iso_date = ("") → extractActivityDates (ds ++ [d]) = extractActivityDates ds) ∧
    (d.iso_date ≠ ("") →
      (listContainsSub (pyLowerStr d.type).data ("start").data
        || pyLowerStr d.type == ("1")) = true →
      (extractActivityDates (ds ++ [d])).1 = d.iso_date) ∧
    (d.iso_date ≠ ("") →
      (listContainsSub (pyLowerStr d.type).data ("start").data
        || pyLowerStr d.type == ("1")) = false →
      (listContainsSub (pyLowerStr d.type).data ("end").data
        || pyLowerStr d.type == ("3")) = true →
      (extractActivityDates (ds ++ [d])).2 = d.iso_date) := by
  have hstep : extractActivityDates (ds ++ [d]) =
      activityDateStep (extractActivityDates ds) d := by
    simp [extractActivityDates, List.foldl_append]
  refine ⟨?_, ?_, ?_⟩
  · intro h1
    rw [hstep]
    unfold activityDateStep
    simp [h1]
  · intro h1 h2
    rw [hstep]
    unfold activityDateStep
    simp [h1, h2]
  · intro h1 h2 h3
    rw [hstep]
    unfold activityDateStep
    simp [h1, h2, h3]

/-- Witness for `c6_date_typing_last_wins`: a later actual-start entry
overwrites a planned start, and a later actual-end entry overwrites a planned
end. -/
theorem c6_date_typing_last_wins_witness :
    (extractActivityDates ([⟨("1"), ("2020-01-01")⟩] ++ [⟨("start (actual)"), ("2022-05-05")⟩])).1 =
      ("2022-05-05") ∧
    (extractActivityDates ([⟨("3"), ("2020-12-31")⟩] ++ [⟨("end (actual)"), ("2023-06-06")⟩])).2 =
      ("2023-06-06") :=
  ⟨(c6_date_typing_last_wins [⟨("1"), ("2020-01-01")⟩] ⟨("start (actual)"), ("2022-05-05")⟩).2.1
      (by decide) (by decide),
   (c6_date_typing_last_wins [⟨("3"), ("2020-12-31")⟩] ⟨("end (actual)"), ("2023-06-06")⟩).2.2
      (by decide) (by decide) (by decide)⟩

/-- C7 counterexample: at the claim's own trigger — a supplied location name
that resolves to nothing — both embedded call-site steps log a warning and
proceed with a null link instead of raising; no strict call site exists. -/
theorem c7_counterexample :
    locationLinkStep (fun _ => none) (fun _ => none) ("Gorkha") = LinkOutcome.noLink true ∧
    provinceLinkStep (fun _ => none) ("Bagmati Province") = LinkOutcome.noLink true := by
  decide

/-- C7 (amended): every location-resolution call site in the pipeline (the
location and province steps, shared verbatim by the World Bank and NPC paths)
is lenient: no input makes any of them raise; an unresolved supplied name only
yields a warned null link. -/
theorem c7_all_call_sites_lenient (dl ml pl : String → Option String)
    (nm msg : String) :
    locationLinkStep dl ml nm ≠ LinkOutcome.aborted msg ∧
    provinceLinkStep pl nm ≠ LinkOutcome.aborted msg := by
  constructor
  · unfold locationLinkStep
    by_cases hnm : nm = ("")
    · rw [if_pos hnm]
      simp
    · rw [if_neg hnm]
      rcases h1 : dl (aliasFix (normalizeLocationName nm)) with _ | e1 <;>
        rcases h2 : ml (aliasFix (normalizeLocationName nm)) with _ | e2 <;>
        rcases h3 : dl (pyLowerStr (pyStripStr nm)) with _ | e3 <;>
        rcases h4 : ml (pyLowerStr (pyStripStr nm)) with _ | e4 <;>
        simp [h1, h2, h3, h4]
  · unfold provinceLinkStep
    by_cases hnm : nm = ("")
    · rw [if_pos hnm]
      simp
    · rw [if_neg hnm]
      rcases h1 : pl (aliasFix (normalizeLocationName nm)) with _ | e1 <;>
        rcases h2 : pl (pyLowerStr (pyStripStr nm)) with _ | e2 <;>
        simp [h1, h2]

/-- C8 counterexample: a wrong-country record (`country_code="IN"`,
`country="India"`) is skipped but does not increment the skipped counter,
and a missing-title record is counted but writes no log line — the claim's
"counted and logged" fails in both directions. -/
theorem c8_counterexample :
    screenRecord ("Hydropower Plant").data ("India").data ("IN").data =
      ScreenResult.skipNotNepal ∧
    skippedCounterDelta (screenRecord ("Hydropower Plant").data ("India").data ("IN").data) = 0 ∧
    screenRecord ("").data ("Nepal").data ("NP").data = ScreenResult.skipNoTitle ∧
    skipIsLogged (screenRecord ("").data ("Nepal").data ("NP").data) = false := by decide

/-- C8 (amended): screening is a total function (no exception is raised) and
a record with `country_code="IN"` and `country="India"` is always skipped,
whatever the title; a record is a missing-title skip exactly when its stripped
title is empty; missing-title skips increment the skipped counter but are not
logged, and wrong-country skips are logged but not counted. -/
theorem c8_skip_accounting (title country code : List Char) :
    screenRecord title ("India").data ("IN").data ≠ ScreenResult.accepted ∧
    (screenRecord title country code = ScreenResult.skipNoTitle ↔
      (pyStrip title).isEmpty = true) ∧
    (skippedCounterDelta (screenRecord title country code) = 1 ↔
      screenRecord title country code = ScreenResult.skipNoTitle) ∧
    (skipIsLogged (screenRecord title country code) = true ↔
      screenRecord title country code = ScreenResult.skipNotNepal) := by
  refine ⟨?_, ?_, ?_, ?_⟩
  · unfold screenRecord
    split_ifs with h1 h2
    · simp
    · simp
    · exact absurd ⟨by decide, by decide⟩ h2
  · unfold screenRecord
    split_ifs <;> simp_all
  · cases h : screenRecord title country code <;>
      simp [skippedCounterDelta, h]
  · cases h : screenRecord title country code <;>
      simp [skipIsLogged, h]

/-- C9: coordinate parsing from a `pos` text is total (never raises) and
either fails to both coordinates being null, or succeeds with the latitude
parsed from the first whitespace-separated token and the longitude from the
second. -/
theorem c9_pos_parse_spec (α : Type) (pf : String → Option α) (posText : Option String) :
    parsePos pf posText = (none, none) ∨
    ∃ t s0 s1 a b, posText = some t ∧
      (pySplit (pyStrip t.data)).head? = some s0 ∧
      (pySplit (pyStrip t.data)).tail.head? = some s1 ∧
      pf ⟨s0⟩ = some a ∧ pf ⟨s1⟩ = some b ∧
      parsePos pf posText = (some a, some b) := by
  cases posText with
  | none => exact Or.inl rfl
  | some t =>
    by_cases ht : t = ("")
    · subst ht
      exact Or.inl rfl
    · rcases e : pySplit (pyStrip t.data) with _ | ⟨s0, rest0⟩
      · left
        simp [parsePos, ht, e]
      · rcases rest0 with _ | ⟨s1, rest1⟩
        · left
          simp [parsePos, ht, e]
        · rcases h0 : pf ⟨s0⟩ with _ | a
          · left
            simp [parsePos, ht, e, h0]
          · rcases h1 : pf ⟨s1⟩ with _ | b
            · left
              simp [parsePos, ht, e, h0, h1]
            · right
              refine ⟨t, s0, s1, a, b, rfl, ?_, ?_, h0, h1, ?_⟩
              · rw [e]; rfl
              · rw [e]; rfl
              · simp [parsePos, ht, e, h0, h1]

/-- C10: when `other_identifiers` is empty, `_normalize_adb_project` derives
`project_id = ""` even for a non-empty `iati_identifier` (the conditional
expression gates the whole or-chain on `other_identifiers`), and the derived
project url is therefore empty as well. -/
theorem c10_project_id_gated (a : IatiActivity) (h : a.other_identifiers = []) :
    adbIatiProjectId a = some ("") ∧ adbIatiUrl (adbIatiProjectId a) = ("") := by
  have hid : adbIatiProjectId a = some ("") := by
    unfold adbIatiProjectId
    rw [h]
  exact ⟨hid, by rw [hid]; rfl⟩

/-- Witness for `c10_project_id_gated` at an activity carrying a non-empty
IATI identifier but no other-identifiers. -/
theorem c10_project_id_gated_witness :
    adbIatiProjectId ⟨some ("XM-DAC-46004-P12345"), []⟩ = some ("") ∧
    adbIatiUrl (adbIatiProjectId ⟨some ("XM-DAC-46004-P12345"), []⟩) = ("") :=
  c10_project_id_gated ⟨some ("XM-DAC-46004-P12345"), []⟩ rfl

/-- C1: evaluating `_normalize_adb_json_project` at the spec's end-to-end
record `{"title": "", "name": "Irrigation Scheme", "country_code": "NP"}`:
because the record has no project id and the conditional expression gates the
whole title fallback chain on a truthy `project_id`, the derived title is
empty and the record is dropped (the intended chain demonstrably works when a
project id is present). -/
theorem c1_failing_input_eval :
    adbJsonTitle [(("title"), ("")), (("name"), ("Irrigation Scheme")),
      (("country_code"), ("NP"))] = ("") ∧
    adbJsonNormalizedTitle [(("title"), ("")), (("name"), ("Irrigation Scheme")),
      (("country_code"), ("NP"))] = none ∧
    adbJsonTitle [(("id"), ("123")), (("title"), ("")),
      (("name"), ("Irrigation Scheme"))] = ("Irrigation Scheme") := by decide

end NDPS
